import Mathlib

/-!
Shallow embedding of `lazy_async_promise`'s progress-tracking wrapper
(`src/immediatevalueprogress.rs`) together with the pieces of the crate it
builds on (`Progress`, `ImmediateValueState`, `ImmediateValuePromise`,
`DirectCacheAccess`), which are part of the crate but not present under
`src/` and are therefore modelled from the spec.

Modelling conventions:
- Rust methods taking `&mut self` become functions returning the updated
  value (paired with the Rust return value where there is one).
- The tokio mpsc channel's receiver half is modelled as a FIFO list of
  pending messages (head = oldest); `try_recv` pops the head when one is
  immediately available and reports nothing otherwise.
- `Instant` timestamps are opaque to every claim; they are modelled as `ℕ`.
- Rust `Result<T, E>` is modelled as `Except E T`; a mutable borrow
  obtained through `get_value_mut` is modelled by applying a caller-chosen
  update function to the cached value.
-/

set_option autoImplicit false

deriving instance DecidableEq for Except

namespace LazyAsyncPromise

/-- Modelled from the spec: the `Progress` value type is part of the crate but
not under `src/`. Spec §3: "a single float-like value, invariant
0.0 ≤ value ≤ 1.0"; the fraction is modelled as a rational number. -/
structure Progress where
  fraction : ℚ
  deriving DecidableEq, Repr

/-- Modelled from the spec: the zero `Progress` returned by Rust's
`Progress::default()` (spec §4.4: "a default (zero) Progress"). -/
def Progress.default : Progress := ⟨0⟩

/-- Modelled from the spec: `Progress::from_percent(x)` "maps x … to x/100,
clamped into [0,1]; values below 0 clamp to 0, values at/above 100 clamp
to 1" (spec §4.3); "clamping, not rejection, is the defined behavior for
out-of-range inputs" (spec §3), so the function is total. -/
def Progress.from_percent (x : ℚ) : Progress :=
  ⟨max 0 (min 1 (x / 100))⟩

/-- `Status<M>` from `src/immediatevalueprogress.rs`: issue-date, progress and
message. The `Instant` timestamp is opaque and modelled as `ℕ`. -/
structure Status (M : Type) where
  time : ℕ
  progress : Progress
  message : M
  deriving DecidableEq, Repr

/-- Modelled from the spec: `ImmediateValueState<T>` is part of the crate but
not under `src/`. Spec §3 gives the variants (Empty, InProgress,
Succeeded, Failed); the constructor names `Updating` and `Success` are the
ones used by the test code in `src/immediatevalueprogress.rs`. -/
inductive ImmediateValueState (T E : Type) where
  | Updating
  | Success (value : T)
  | Error (e : E)
  | Empty
  deriving DecidableEq, Repr

/-- `true` exactly on the spec's terminal variants (Succeeded/Failed). -/
def ImmediateValueState.isTerminal {T E : Type} : ImmediateValueState T E → Bool
  | .Success _ => true
  | .Error _ => true
  | _ => false

/-- Modelled from the spec: `ImmediateValuePromise<T>` is part of the crate but
not under `src/`. Spec §4.1: it owns the async handle and a state; the
handle's eventual output is modelled as `taskResult`, the result the
asynchronous computation has deposited but the state machine has not yet
consumed (`none` while the computation is still running, and again after
the one-time consumption, since the work "is never re-executed"). -/
structure ImmediateValuePromise (T E : Type) where
  state : ImmediateValueState T E
  taskResult : Option (Except E T)
  deriving DecidableEq, Repr

namespace ImmediateValuePromise

variable {T E : Type}

/-- Modelled from the spec: spec §4.1 — `poll` is a non-blocking readiness
check; `NotStarted/InProgress → Succeeded/Failed` exactly once, the first
time the computation's result is available; thereafter an idempotent read
of the cached terminal value. -/
def poll_state (p : ImmediateValuePromise T E) : ImmediateValuePromise T E :=
  match p.state, p.taskResult with
  | .Updating, some (.ok v) => { state := .Success v, taskResult := none }
  | .Updating, some (.error e) => { state := .Error e, taskResult := none }
  | _, _ => p

/-- Modelled from the spec: spec §4.2 — read-only borrow of the success
value; absence in every non-Succeeded state. -/
def get_value (p : ImmediateValuePromise T E) : Option T :=
  match p.state with
  | .Success v => some v
  | _ => none

/-- Modelled from the spec: spec §4.2 — read-only borrow of the full result
(success or error); absence when no terminal result is cached. -/
def get_result (p : ImmediateValuePromise T E) : Option (Except E T) :=
  match p.state with
  | .Success v => some (.ok v)
  | .Error e => some (.error e)
  | _ => none

/-- Modelled from the spec: spec §4.2 — mutable borrow of the success value;
the mutation performed through the borrow is modelled by applying `f` to
the cached value. In every non-Succeeded state no borrow is handed out
and the promise is unchanged. -/
def get_value_mut (f : T → T) (p : ImmediateValuePromise T E) :
    ImmediateValuePromise T E :=
  match p.state with
  | .Success v => { p with state := .Success (f v) }
  | _ => p

/-- Modelled from the spec: spec §4.2 — moves the success value out, leaving
the cache empty; spec §3: "once taken …, [the value] is permanently
removed (subsequent reads observe absence)". -/
def take_value (p : ImmediateValuePromise T E) :
    Option T × ImmediateValuePromise T E :=
  match p.state with
  | .Success v => (some v, { p with state := .Empty })
  | _ => (none, p)

/-- Modelled from the spec: spec §4.2 — moves the full result (success or
error) out, leaving the cache empty. -/
def take_result (p : ImmediateValuePromise T E) :
    Option (Except E T) × ImmediateValuePromise T E :=
  match p.state with
  | .Success v => (some (.ok v), { p with state := .Empty })
  | .Error e => (some (.error e), { p with state := .Empty })
  | _ => (none, p)

end ImmediateValuePromise

/-- Non-blocking receive on the modelled channel: pops the oldest buffered
message when one is immediately available, reports nothing otherwise
(tokio's `Receiver::try_recv`). -/
def tryRecv {A : Type} : List A → Option (A × List A)
  | [] => none
  | a :: rest => some (a, rest)

/-- `ProgressTrackedImValProm<T, M>` from `src/immediatevalueprogress.rs`:
the wrapped promise, the recorded status log (`status: Vec<Status<M>>`) and
the channel receiver, modelled as the FIFO list of messages buffered in the
channel and not yet received. -/
structure ProgressTrackedImValProm (T E M : Type) where
  promise : ImmediateValuePromise T E
  status : List (Status M)
  receiver : List (Status M)
  deriving DecidableEq, Repr

namespace ProgressTrackedImValProm

variable {T E M : Type}

/-- `ProgressTrackedImValProm::new` from `src/immediatevalueprogress.rs`:
creates a fresh bounded channel of capacity `buffer` (fresh = no buffered
messages yet), invokes the creator exactly once to obtain the promise, and
stores the empty status log with the receiver. The sender half and the
capacity have no observable effect inside the wrapper and are not part of
the state; `buffer` is kept as an (unused) argument for fidelity. -/
def new (creator : Unit → ImmediateValuePromise T E) (buffer : ℕ) :
    ProgressTrackedImValProm T E M :=
  let _ := buffer
  { promise := creator (), status := [], receiver := [] }

/-- `status_history` from `src/immediatevalueprogress.rs`: slice of all
recorded status changes. -/
def status_history (w : ProgressTrackedImValProm T E M) : List (Status M) :=
  w.status

/-- `last_status` from `src/immediatevalueprogress.rs`: the last status if
there is any (`self.status.last()`). -/
def last_status (w : ProgressTrackedImValProm T E M) : Option (Status M) :=
  w.status.getLast?

/-- `finished` from `src/immediatevalueprogress.rs`:
`self.promise.get_value().is_some()`. -/
def finished (w : ProgressTrackedImValProm T E M) : Bool :=
  (w.promise.get_value).isSome

/-- The drain loop inside `poll_state`:
`while let Ok(msg) = self.receiver.try_recv() { self.status.push(msg); }`. -/
def drainLoop (status receiver : List (Status M)) :
    List (Status M) × List (Status M) :=
  match receiver with
  | msg :: rest => drainLoop (status ++ [msg]) rest
  | [] => (status, [])

/-- `poll_state` from `src/immediatevalueprogress.rs`: drains the receiver,
pushing every received message onto the status log, then delegates to
`self.promise.poll_state()`. The Rust function returns a reference to the
resulting state; here the observed state is `(w.poll_state).promise.state`. -/
def poll_state (w : ProgressTrackedImValProm T E M) :
    ProgressTrackedImValProm T E M :=
  { promise := w.promise.poll_state,
    status := (drainLoop w.status w.receiver).1,
    receiver := (drainLoop w.status w.receiver).2 }

/-- `get_progress` from `src/immediatevalueprogress.rs`:
`self.status.last().map(|p| p.progress).unwrap_or(Progress::default())`. -/
def get_progress (w : ProgressTrackedImValProm T E M) : Progress :=
  ((w.status.getLast?).map Status.progress).getD Progress.default

/-- `DirectCacheAccess::get_value` for the wrapper: delegation to the
promise (`src/immediatevalueprogress.rs`). -/
def get_value (w : ProgressTrackedImValProm T E M) : Option T :=
  w.promise.get_value

/-- `DirectCacheAccess::get_result` for the wrapper: delegation to the
promise (`src/immediatevalueprogress.rs`). -/
def get_result (w : ProgressTrackedImValProm T E M) : Option (Except E T) :=
  w.promise.get_result

/-- `DirectCacheAccess::get_value_mut` for the wrapper: delegation to the
promise (`src/immediatevalueprogress.rs`); the mutation through the
returned borrow is modelled by the update function `f`. -/
def get_value_mut (f : T → T) (w : ProgressTrackedImValProm T E M) :
    ProgressTrackedImValProm T E M :=
  { w with promise := w.promise.get_value_mut f }

/-- `DirectCacheAccess::take_value` for the wrapper: delegation to the
promise (`src/immediatevalueprogress.rs`). -/
def take_value (w : ProgressTrackedImValProm T E M) :
    Option T × ProgressTrackedImValProm T E M :=
  ((w.promise.take_value).1, { w with promise := (w.promise.take_value).2 })

/-- `DirectCacheAccess::take_result` for the wrapper: delegation to the
promise (`src/immediatevalueprogress.rs`). -/
def take_result (w : ProgressTrackedImValProm T E M) :
    Option (Except E T) × ProgressTrackedImValProm T E M :=
  ((w.promise.take_result).1, { w with promise := (w.promise.take_result).2 })

/-- `n` successive `poll_state` calls. -/
def pollIter (n : ℕ) (w : ProgressTrackedImValProm T E M) :
    ProgressTrackedImValProm T E M :=
  match n with
  | 0 => w
  | n + 1 => pollIter n w.poll_state

end ProgressTrackedImValProm

/-- A public wrapper operation that mutates the wrapper without taking the
cached value out: a `poll_state` call, or a mutation performed through the
borrow handed out by `get_value_mut`. (The remaining public operations —
`status_history`, `last_status`, `finished`, `get_progress`, `get_value`,
`get_result` — are read-only and are pure observers in this embedding.) -/
inductive WrapperOp (T : Type) where
  | poll
  | mutate (f : T → T)

/-- Apply one non-take wrapper operation. -/
def WrapperOp.apply {T E M : Type} (op : WrapperOp T)
    (w : ProgressTrackedImValProm T E M) : ProgressTrackedImValProm T E M :=
  match op with
  | .poll => w.poll_state
  | .mutate f => w.get_value_mut f

/-- Apply a sequence of non-take wrapper operations, oldest first. -/
def applyOps {T E M : Type} (ops : List (WrapperOp T))
    (w : ProgressTrackedImValProm T E M) : ProgressTrackedImValProm T E M :=
  ops.foldl (fun w op => op.apply w) w

/-! ## Helper lemmas -/

/-- `tryRecv` on an empty buffer reports that no message is immediately
available. -/
theorem tryRecv_nil {A : Type} : tryRecv ([] : List A) = none := rfl

/-- `tryRecv` on a nonempty buffer pops the oldest message. -/
theorem tryRecv_cons {A : Type} (a : A) (rest : List A) :
    tryRecv (a :: rest) = some (a, rest) := rfl

/-- The drain loop steps exactly as the `while let Ok(msg) = try_recv()` loop
of the source: one `tryRecv` per iteration, stopping at `none`. -/
theorem drainLoop_eq_tryRecv_step {M : Type} (status receiver : List (Status M)) :
    ProgressTrackedImValProm.drainLoop status receiver =
      match tryRecv receiver with
      | some (msg, rest) => ProgressTrackedImValProm.drainLoop (status ++ [msg]) rest
      | none => (status, receiver) := by
  cases receiver <;> rfl

/-- Draining appends the whole buffered queue, in order, and empties it. -/
theorem drainLoop_spec {M : Type} (status receiver : List (Status M)) :
    ProgressTrackedImValProm.drainLoop status receiver = (status ++ receiver, []) := by
  induction receiver generalizing status with
  | nil => simp [ProgressTrackedImValProm.drainLoop]
  | cons m rest ih => simp [ProgressTrackedImValProm.drainLoop, ih]

/-- Polling a promise whose state is terminal leaves it unchanged. -/
theorem ImmediateValuePromise.poll_state_of_terminal {T E : Type}
    (p : ImmediateValuePromise T E) (h : p.state.isTerminal = true) :
    p.poll_state = p := by
  obtain ⟨s, r⟩ := p
  cases s <;> simp [ImmediateValueState.isTerminal] at h <;> rfl

/-- A promise's cached value is present exactly in the Succeeded state. -/
theorem ImmediateValuePromise.get_value_isSome_iff {T E : Type}
    (p : ImmediateValuePromise T E) :
    (p.get_value).isSome = true ↔ ∃ v, p.state = .Success v := by
  obtain ⟨s, r⟩ := p
  cases s <;> simp [ImmediateValuePromise.get_value]

/-- Any number of successive polls leaves a terminal promise state unchanged. -/
theorem pollIter_state_of_terminal {T E M : Type} (n : ℕ)
    (w : ProgressTrackedImValProm T E M) (h : w.promise.state.isTerminal = true) :
    (ProgressTrackedImValProm.pollIter n w).promise.state = w.promise.state := by
  induction n generalizing w with
  | zero => rfl
  | succ n ih =>
      have hp : (w.poll_state).promise = w.promise :=
        ImmediateValuePromise.poll_state_of_terminal w.promise h
      have hterm : (w.poll_state).promise.state.isTerminal = true := by rw [hp]; exact h
      show (ProgressTrackedImValProm.pollIter n w.poll_state).promise.state = _
      rw [ih w.poll_state hterm, hp]

/-- A single non-take operation keeps `finished` true. -/
theorem finished_applyOp {T E M : Type} (op : WrapperOp T)
    (w : ProgressTrackedImValProm T E M) (h : w.finished = true) :
    (op.apply w).finished = true := by
  obtain ⟨v, hv⟩ := (ImmediateValuePromise.get_value_isSome_iff w.promise).1 h
  cases op with
  | poll =>
      have hp : (w.poll_state).promise = w.promise :=
        ImmediateValuePromise.poll_state_of_terminal w.promise
          (by rw [hv]; rfl)
      show ((w.poll_state).promise.get_value).isSome = true
      rw [hp]
      exact h
  | mutate f =>
      show ((w.promise.get_value_mut f).get_value).isSome = true
      simp [ImmediateValuePromise.get_value_mut, ImmediateValuePromise.get_value, hv]

/-! ## Claims -/

/-- Claim C1: every `poll_state()` call first drains the channel receiver
completely with non-blocking try-receives, pushing each received `Status`
onto the log in arrival order and stopping when no message is immediately
available (the receiver is left empty), then delegates to the wrapped state
machine's poll and returns its resulting state; and no other public method
inspects the channel or mutates the log — the remaining mutating methods
(`take_value`, `take_result` and mutation through `get_value_mut`) leave
both the log and the receiver untouched, while every other method is a pure
observer in this embedding and cannot mutate at all. -/
theorem C1_poll_state_drains_then_delegates {T E M : Type}
    (w : ProgressTrackedImValProm T E M) (f : T → T) :
    (w.poll_state).status_history = w.status_history ++ w.receiver ∧
    (w.poll_state).receiver = [] ∧
    (w.poll_state).promise = w.promise.poll_state ∧
    ((w.take_value).2.status_history = w.status_history ∧
      (w.take_value).2.receiver = w.receiver) ∧
    ((w.take_result).2.status_history = w.status_history ∧
      (w.take_result).2.receiver = w.receiver) ∧
    ((w.get_value_mut f).status_history = w.status_history ∧
      (w.get_value_mut f).receiver = w.receiver) := by
  refine ⟨?_, ?_, rfl, ⟨rfl, rfl⟩, ⟨rfl, rfl⟩, ⟨rfl, rfl⟩⟩
  · show (ProgressTrackedImValProm.drainLoop w.status w.receiver).1 = _
    rw [drainLoop_spec]
    rfl
  · show (ProgressTrackedImValProm.drainLoop w.status w.receiver).2 = _
    rw [drainLoop_spec]

/-- Claim C4: when the producer has sent `N` messages (the FIFO channel
buffers them in send order) and the log is empty, a single `poll_state()`
call makes `status_history()` contain exactly those `N` messages in send
order — no loss, duplication, or reordering — so its length is `N`. -/
theorem C4_history_equals_send_order {T E M : Type}
    (p : ImmediateValuePromise T E) (msgs : List (Status M)) :
    ((⟨p, [], msgs⟩ : ProgressTrackedImValProm T E M).poll_state).status_history
        = msgs ∧
    ((⟨p, [], msgs⟩ : ProgressTrackedImValProm T E M).poll_state).status_history.length
        = msgs.length := by
  have h : ((⟨p, [], msgs⟩ : ProgressTrackedImValProm T E M).poll_state).status_history
      = msgs := by
    show (ProgressTrackedImValProm.drainLoop [] msgs).1 = msgs
    rw [drainLoop_spec]
    rfl
  exact ⟨h, by rw [h]⟩

/-- Claim C2 counterexample: the claim quantifies over all sequences of
public operations, explicitly including the `DirectCacheAccess` take
operations. On the concrete wrapper whose promise already holds the
terminal `Success 34`, a `poll_state` observes `Success 34`, but after a
`take_value` the next `poll_state` observes `Empty` — a non-terminal
variant, so the state does revert once a take intervenes. -/
theorem C2_terminal_reverts_after_take :
    ((⟨⟨.Success 34, none⟩, [], []⟩ :
        ProgressTrackedImValProm ℕ ℕ ℕ).poll_state).promise.state = .Success 34 ∧
    (((((⟨⟨.Success 34, none⟩, [], []⟩ :
        ProgressTrackedImValProm ℕ ℕ ℕ).poll_state).take_value).2).poll_state).promise.state
      = .Empty ∧
    (ImmediateValueState.Empty : ImmediateValueState ℕ ℕ) ≠ .Success 34 := by
  decide

/-- Claim C2 (amended): once a terminal variant (Succeeded or Failed) has
been observed, every subsequent observation through `poll_state` yields the
same terminal variant with the same payload — the state never reverts and
the computation's deposited result is not consumed again; however, a
successful take operation (`take_value` on a Succeeded state, `take_result`
on any terminal state) moves the payload out and resets the state to the
Empty variant. -/
theorem C2_terminal_stable_under_polls {T E M : Type}
    (w : ProgressTrackedImValProm T E M)
    (h : w.promise.state.isTerminal = true) (n : ℕ) :
    (ProgressTrackedImValProm.pollIter n w).promise.state = w.promise.state ∧
    (∀ v, w.promise.state = .Success v →
      ((w.take_value).2).promise.state = .Empty) ∧
    (∀ e, w.promise.state = .Error e →
      ((w.take_result).2).promise.state = .Empty) := by
  refine ⟨pollIter_state_of_terminal n w h, ?_, ?_⟩
  · intro v hv
    show ((w.promise.take_value).2).state = .Empty
    simp [ImmediateValuePromise.take_value, hv]
  · intro e he
    show ((w.promise.take_result).2).state = .Empty
    simp [ImmediateValuePromise.take_result, he]

/-- Claim C2 amended-theorem witness at a concrete terminal wrapper. -/
theorem C2_terminal_stable_under_polls_witness :
    (ProgressTrackedImValProm.pollIter 3
        (⟨⟨.Success 34, none⟩, [], []⟩ : ProgressTrackedImValProm ℕ ℕ ℕ)).promise.state
      = .Success 34 :=
  (C2_terminal_stable_under_polls
    (⟨⟨.Success 34, none⟩, [], []⟩ : ProgressTrackedImValProm ℕ ℕ ℕ)
    (by decide) 3).1

/-- Claim C3 counterexample: on the concrete wrapper whose promise holds the
cached success 34, `finished()` is true, but after the public operation
`take_value()` (which the source's own test exercises, asserting
`get_value().is_none()` afterwards) `finished()` is false again — so
`finished()` does not remain true under every public operation. -/
theorem C3_finished_reverts_after_take :
    (⟨⟨.Success 34, none⟩, [], []⟩ :
        ProgressTrackedImValProm ℕ ℕ ℕ).finished = true ∧
    (((⟨⟨.Success 34, none⟩, [], []⟩ :
        ProgressTrackedImValProm ℕ ℕ ℕ).take_value).2).finished = false := by
  decide

/-- Claim C3 (amended): once the underlying computation completes and
`finished()` is true, it remains true under every subsequent sequence of
public operations other than the take operations: arbitrary interleavings
of `poll_state()` calls and mutations through `get_value_mut()` (the
read-only accessors are pure observers and cannot change it); a successful
`take_value()`/`take_result()`, however, removes the cached value and makes
`finished()` false again. -/
theorem C3_finished_stable_without_takes {T E M : Type}
    (w : ProgressTrackedImValProm T E M) (h : w.finished = true)
    (ops : List (WrapperOp T)) :
    (applyOps ops w).finished = true := by
  induction ops generalizing w with
  | nil => exact h
  | cons op rest ih =>
      show (applyOps rest (op.apply w)).finished = true
      exact ih (op.apply w) (finished_applyOp op w h)

/-- Claim C3 amended-theorem witness: a poll, a mutation and another poll
keep `finished` true on a concrete completed wrapper. -/
theorem C3_finished_stable_without_takes_witness :
    (applyOps [WrapperOp.poll, WrapperOp.mutate (fun v => v - 1), WrapperOp.poll]
        (⟨⟨.Success 34, none⟩, [], []⟩ :
          ProgressTrackedImValProm ℕ ℕ ℕ)).finished = true :=
  C3_finished_stable_without_takes
    (⟨⟨.Success 34, none⟩, [], []⟩ : ProgressTrackedImValProm ℕ ℕ ℕ)
    (by decide)
    [WrapperOp.poll, WrapperOp.mutate (fun v => v - 1), WrapperOp.poll]

/-- Claim C5 counterexample: the claim's final clause says ALL take/get
accessors return absence whenever the computation has not yet produced a
terminal success. On the concrete wrapper whose computation terminated
with the Failed variant (error 7) — so no terminal success was ever
produced — `get_value()` is indeed absent, but `get_result()` and
`take_result()` return the failure, not absence. -/
theorem C5_result_accessors_not_absent_on_failure :
    (⟨⟨.Error 7, none⟩, [], []⟩ :
        ProgressTrackedImValProm ℕ ℕ ℕ).get_value = none ∧
    (⟨⟨.Error 7, none⟩, [], []⟩ :
        ProgressTrackedImValProm ℕ ℕ ℕ).get_result ≠ none ∧
    ((⟨⟨.Error 7, none⟩, [], []⟩ :
        ProgressTrackedImValProm ℕ ℕ ℕ).take_result).1 ≠ none := by
  decide

/-- Claim C5 (amended): `take_value()` returns the cached success value
exactly once — when the state machine holds a cached terminal success, the
first call returns Some of that value, and a second `take_value()` call, as
well as any subsequent `get_value()` call, return absence, never an error;
and when the computation has produced no terminal result at all (Updating
or Empty state), every take/get accessor returns absence. (When the
computation terminated with the Failed variant, the value accessors still
return absence but the result accessors return the failure.) -/
theorem C5_take_value_at_most_once {T E M : Type}
    (w w2 : ProgressTrackedImValProm T E M) (v : T)
    (h : w.promise.state = .Success v)
    (h2 : w2.promise.state = .Updating ∨ w2.promise.state = .Empty) :
    (w.take_value).1 = some v ∧
    (((w.take_value).2).take_value).1 = none ∧
    ((w.take_value).2).get_value = none ∧
    (w2.take_value).1 = none ∧
    w2.get_value = none ∧
    (w2.take_result).1 = none ∧
    w2.get_result = none := by
  refine ⟨?_, ?_, ?_, ?_, ?_, ?_, ?_⟩
  · show (w.promise.take_value).1 = some v
    simp [ImmediateValuePromise.take_value, h]
  · show ((((w.promise.take_value).2)).take_value).1 = none
    simp [ImmediateValuePromise.take_value, h]
  · show ((w.promise.take_value).2).get_value = none
    simp [ImmediateValuePromise.take_value, ImmediateValuePromise.get_value, h]
  · show (w2.promise.take_value).1 = none
    rcases h2 with h2 | h2 <;> simp [ImmediateValuePromise.take_value, h2]
  · show w2.promise.get_value = none
    rcases h2 with h2 | h2 <;> simp [ImmediateValuePromise.get_value, h2]
  · show (w2.promise.take_result).1 = none
    rcases h2 with h2 | h2 <;> simp [ImmediateValuePromise.take_result, h2]
  · show w2.promise.get_result = none
    rcases h2 with h2 | h2 <;> simp [ImmediateValuePromise.get_result, h2]

/-- Claim C5 amended-theorem witness: a successful wrapper yields 34 exactly
once, and a still-running wrapper yields absence everywhere. -/
theorem C5_take_value_at_most_once_witness :
    ((⟨⟨.Success 34, none⟩, [], []⟩ :
        ProgressTrackedImValProm ℕ ℕ ℕ).take_value).1 = some 34 ∧
    ((((⟨⟨.Success 34, none⟩, [], []⟩ :
        ProgressTrackedImValProm ℕ ℕ ℕ).take_value).2).take_value).1 = none ∧
    ((⟨⟨.Updating, none⟩, [], []⟩ :
        ProgressTrackedImValProm ℕ ℕ ℕ).take_value).1 = none := by
  have h := C5_take_value_at_most_once
    (⟨⟨.Success 34, none⟩, [], []⟩ : ProgressTrackedImValProm ℕ ℕ ℕ)
    (⟨⟨.Updating, none⟩, [], []⟩ : ProgressTrackedImValProm ℕ ℕ ℕ)
    34 rfl (Or.inl rfl)
  exact ⟨h.1, h.2.1, h.2.2.2.1⟩

/-- Claim C6: a freshly constructed wrapper — `new(factory, buffer)` builds a
fresh (hence empty) channel and invokes the factory once — whose computation
has not yet produced any message (empty receiver, by construction) or
result (promise still in the Updating, or possibly Empty, non-terminal
state) has an empty `status_history()`, `get_progress()` equal to the zero
(default) `Progress`, and `finished() = false`. -/
theorem C6_fresh_wrapper_initial_observations {T E M : Type}
    (creator : Unit → ImmediateValuePromise T E) (buffer : ℕ)
    (h : (creator ()).state = .Updating ∨ (creator ()).state = .Empty) :
    (ProgressTrackedImValProm.new creator buffer :
        ProgressTrackedImValProm T E M).status_history = [] ∧
    (ProgressTrackedImValProm.new creator buffer :
        ProgressTrackedImValProm T E M).receiver = [] ∧
    (ProgressTrackedImValProm.new creator buffer :
        ProgressTrackedImValProm T E M).get_progress = Progress.default ∧
    (ProgressTrackedImValProm.new creator buffer :
        ProgressTrackedImValProm T E M).finished = false := by
  refine ⟨rfl, rfl, rfl, ?_⟩
  show ((creator ()).get_value).isSome = false
  rcases h with h | h <;> simp [ImmediateValuePromise.get_value, h]

/-- Claim C6 witness at a concrete factory producing an Updating promise. -/
theorem C6_fresh_wrapper_initial_observations_witness :
    (ProgressTrackedImValProm.new (fun _ => ⟨.Updating, none⟩) 2000 :
        ProgressTrackedImValProm ℕ ℕ ℕ).status_history = [] ∧
    (ProgressTrackedImValProm.new (fun _ => ⟨.Updating, none⟩) 2000 :
        ProgressTrackedImValProm ℕ ℕ ℕ).receiver = [] ∧
    (ProgressTrackedImValProm.new (fun _ => ⟨.Updating, none⟩) 2000 :
        ProgressTrackedImValProm ℕ ℕ ℕ).get_progress = Progress.default ∧
    (ProgressTrackedImValProm.new (fun _ => ⟨.Updating, none⟩) 2000 :
        ProgressTrackedImValProm ℕ ℕ ℕ).finished = false :=
  C6_fresh_wrapper_initial_observations (fun _ => ⟨.Updating, none⟩) 2000
    (Or.inl rfl)

/-- Claim C7: `finished()` is true iff the underlying state machine holds a
cached terminal success value (so a computation that terminated with the
Failed variant does not make it true); and the check depends only on the
wrapped promise — two wrappers with the same promise but different logs or
buffered messages agree on `finished()`, so the check inspects neither the
channel nor the log, and being a pure observer in this embedding it cannot
drain, poll, or otherwise mutate the wrapper. -/
theorem C7_finished_iff_cached_success {T E M : Type}
    (w w2 : ProgressTrackedImValProm T E M) (h : w2.promise = w.promise) :
    (w.finished = true ↔ ∃ v, w.promise.state = .Success v) ∧
    (∀ e, w.promise.state = .Error e → w.finished = false) ∧
    w2.finished = w.finished := by
  refine ⟨ImmediateValuePromise.get_value_isSome_iff w.promise, ?_, ?_⟩
  · intro e he
    show ((w.promise.get_value)).isSome = false
    simp [ImmediateValuePromise.get_value, he]
  · show ((w2.promise.get_value)).isSome = ((w.promise.get_value)).isSome
    rw [h]

/-- Claim C7 witness: on concrete wrappers sharing a Succeeded promise but
with different logs and buffered messages, `finished` is true and agrees. -/
theorem C7_finished_iff_cached_success_witness :
    (⟨⟨.Success 34, none⟩, [], [⟨0, ⟨0⟩, 0⟩]⟩ :
        ProgressTrackedImValProm ℕ ℕ ℕ).finished = true ∧
    (⟨⟨.Success 34, none⟩, [⟨0, ⟨0⟩, 0⟩], []⟩ :
        ProgressTrackedImValProm ℕ ℕ ℕ).finished
      = (⟨⟨.Success 34, none⟩, [], [⟨0, ⟨0⟩, 0⟩]⟩ :
        ProgressTrackedImValProm ℕ ℕ ℕ).finished := by
  have h := C7_finished_iff_cached_success
    (⟨⟨.Success 34, none⟩, [], [⟨0, ⟨0⟩, 0⟩]⟩ : ProgressTrackedImValProm ℕ ℕ ℕ)
    (⟨⟨.Success 34, none⟩, [⟨0, ⟨0⟩, 0⟩], []⟩ : ProgressTrackedImValProm ℕ ℕ ℕ)
    rfl
  exact ⟨h.1.mpr ⟨34, rfl⟩, h.2.2⟩

/-- Claim C8: `get_progress()` returns the `Progress` field of the most
recently logged `Status` entry, or the default (zero) `Progress` when the
log is empty; and it depends only on the log — two wrappers with the same
log but different promises and buffered messages agree on it, so it never
re-derives progress from the state machine nor drains unread channel
messages (as a pure observer in this embedding it cannot mutate at all). -/
theorem C8_get_progress_from_last_logged {T E M : Type}
    (w w2 : ProgressTrackedImValProm T E M) (s : Status M)
    (hs : w2.status = w.status) :
    (w.status_history = [] → w.get_progress = Progress.default) ∧
    (w.status_history.getLast? = some s → w.get_progress = s.progress) ∧
    w2.get_progress = w.get_progress := by
  refine ⟨?_, ?_, ?_⟩
  · intro h
    show ((w.status.getLast?).map Status.progress).getD Progress.default = _
    rw [show w.status = [] from h]
    rfl
  · intro h
    show ((w.status.getLast?).map Status.progress).getD Progress.default = _
    rw [show w.status.getLast? = some s from h]
    rfl
  · show ((w2.status.getLast?).map Status.progress).getD Progress.default = _
    rw [hs]
    rfl

/-- Claim C8 witness: on a concrete wrapper whose last logged entry reports
progress 1/2, `get_progress` is 1/2, and a wrapper with the same log but a
different promise and buffered messages agrees. -/
theorem C8_get_progress_from_last_logged_witness :
    (⟨⟨.Updating, none⟩, [⟨0, ⟨1/2⟩, 7⟩], []⟩ :
        ProgressTrackedImValProm ℕ ℕ ℕ).get_progress = ⟨1/2⟩ ∧
    (⟨⟨.Success 3, none⟩, [⟨0, ⟨1/2⟩, 7⟩], [⟨1, ⟨1⟩, 8⟩]⟩ :
        ProgressTrackedImValProm ℕ ℕ ℕ).get_progress
      = (⟨⟨.Updating, none⟩, [⟨0, ⟨1/2⟩, 7⟩], []⟩ :
        ProgressTrackedImValProm ℕ ℕ ℕ).get_progress := by
  have h := C8_get_progress_from_last_logged
    (⟨⟨.Updating, none⟩, [⟨0, ⟨1/2⟩, 7⟩], []⟩ : ProgressTrackedImValProm ℕ ℕ ℕ)
    (⟨⟨.Success 3, none⟩, [⟨0, ⟨1/2⟩, 7⟩], [⟨1, ⟨1⟩, 8⟩]⟩ :
      ProgressTrackedImValProm ℕ ℕ ℕ)
    ⟨0, ⟨1/2⟩, 7⟩ rfl
  exact ⟨h.2.1 rfl, h.2.2⟩

/-- Claim C9: `Progress::from_percent(x)` maps any input to x/100 clamped
into [0,1]: inputs ≤ 0 give fraction 0, inputs ≥ 100 give fraction 1,
inputs strictly between give exactly x/100, the mapping is monotonic, and
every input (out-of-range included) is clamped into [0,1], never
rejected — the function is total and its result always satisfies the
Progress invariant. -/
theorem C9_from_percent_clamps (x y : ℚ) (hxy : x ≤ y) :
    (x ≤ 0 → (Progress.from_percent x).fraction = 0) ∧
    (100 ≤ x → (Progress.from_percent x).fraction = 1) ∧
    (0 < x → x < 100 → (Progress.from_percent x).fraction = x / 100) ∧
    (Progress.from_percent x).fraction ≤ (Progress.from_percent y).fraction ∧
    0 ≤ (Progress.from_percent x).fraction ∧
    (Progress.from_percent x).fraction ≤ 1 := by
  have h100 : (0 : ℚ) < 100 := by norm_num
  refine ⟨?_, ?_, ?_, ?_, ?_, ?_⟩
  · intro h
    have hx : x / 100 ≤ 0 := by
      rw [div_le_iff₀ h100]
      simpa using h
    show max 0 (min 1 (x / 100)) = 0
    exact max_eq_left (le_trans (min_le_right _ _) hx)
  · intro h
    have hx : 1 ≤ x / 100 := by
      rw [le_div_iff₀ h100]
      simpa using h
    show max 0 (min 1 (x / 100)) = 1
    rw [min_eq_left hx]
    norm_num
  · intro h1 h2
    have hle : x / 100 ≤ 1 := (div_le_one h100).mpr (le_of_lt h2)
    have hge : 0 ≤ x / 100 := div_nonneg (le_of_lt h1) (le_of_lt h100)
    show max 0 (min 1 (x / 100)) = x / 100
    rw [min_eq_right hle]
    exact max_eq_right hge
  · show max 0 (min 1 (x / 100)) ≤ max 0 (min 1 (y / 100))
    have hdiv : x / 100 ≤ y / 100 := (div_le_div_iff_of_pos_right h100).mpr hxy
    exact max_le_max le_rfl (min_le_min le_rfl hdiv)
  · exact le_max_left _ _
  · show max 0 (min 1 (x / 100)) ≤ 1
    exact max_le (by norm_num) (min_le_left _ _)

/-- Claim C9 witness: 50 maps to exactly one half and the mapping is
monotone from 50 to 60. -/
theorem C9_from_percent_clamps_witness :
    (Progress.from_percent 50).fraction = 50 / 100 ∧
    (Progress.from_percent 50).fraction ≤ (Progress.from_percent 60).fraction := by
  have h := C9_from_percent_clamps 50 60 (by norm_num)
  exact ⟨h.2.2.1 (by norm_num) (by norm_num), h.2.2.2.1⟩

/-- Claim C10: the read accessors are mutually consistent on every wrapper
state: `last_status()` equals the last element of `status_history()` and is
absent exactly when that slice is empty, and whenever `last_status()` is
present, `get_progress()` equals the progress field of the status it
returns. -/
theorem C10_read_accessors_consistent {T E M : Type}
    (w : ProgressTrackedImValProm T E M) (s : Status M) :
    w.last_status = w.status_history.getLast? ∧
    (w.last_status = none ↔ w.status_history = []) ∧
    (w.last_status = some s → w.get_progress = s.progress) := by
  refine ⟨rfl, ?_, ?_⟩
  · show w.status.getLast? = none ↔ w.status = []
    exact List.getLast?_eq_none_iff
  · intro h
    show ((w.status.getLast?).map Status.progress).getD Progress.default = _
    rw [show w.status.getLast? = some s from h]
    rfl

/-- Claim C10 witness: on a concrete one-entry log, `get_progress` equals the
progress of the entry returned by `last_status`. -/
theorem C10_read_accessors_consistent_witness :
    (⟨⟨.Updating, none⟩, [⟨3, ⟨1/4⟩, 9⟩], []⟩ :
        ProgressTrackedImValProm ℕ ℕ ℕ).get_progress = ⟨1/4⟩ :=
  (C10_read_accessors_consistent
    (⟨⟨.Updating, none⟩, [⟨3, ⟨1/4⟩, 9⟩], []⟩ : ProgressTrackedImValProm ℕ ℕ ℕ)
    ⟨3, ⟨1/4⟩, 9⟩).2.2 rfl

end LazyAsyncPromise
